import Mathlib

/-!
Shallow embedding, in Lean 4, of the analytics core of the `finance-app`
repository (CSV import service, recurring-expense detector, spending
forecaster, cashflow forecaster), together with theorems settling the
frozen claims about that code.

Modelling conventions, stated once:
* Python floats are modelled by exact rationals (`ℚ`); machine rounding of
  individual float operations is not modelled.
* `numpy.sqrt` (reached through `np.std` / pandas `.std()`) is modelled by
  `npSqrt`, an executable rational stand-in that is exact on perfect
  squares of rationals (in particular `npSqrt 0 = 0` and `npSqrt 1 = 1`,
  matching the float function exactly there) and a Newton approximation
  elsewhere.  Where a theorem needs square roots at non-square points it
  abstracts the routine as a function parameter `sq : ℚ → ℚ` instead.
* Python `round(x, 2)` (round-half-to-even at two decimals) is modelled
  exactly on rationals by `round2q`.
* Calendar dates are modelled as integer day numbers (days since
  1970-01-01, the proleptic Gregorian calendar, as in pandas timestamps);
  `civilFromDays` converts a day number to (year, month, day) and
  `dayOfWeek` follows the pandas convention Monday = 0.
* Strings are processed through their underlying character lists; the
  Python regular-expression substitutions of the source are translated
  rule by rule into explicit character-list transformations.
-/

/-- Whitespace test matching the characters of the Python `\s` class and
`str.split()` / `str.strip()` for the ASCII range. -/
def isSpaceChar (c : Char) : Bool :=
  c = ' ' || c = '\t' || c = '\n' || c = '\r' || c = '\x0b' || c = '\x0c'

/-- Arithmetic mean of a list of rationals (0 on the empty list, where the
Python counterpart would produce NaN; no claim exercises that case). -/
def meanQ (xs : List ℚ) : ℚ := xs.sum / (xs.length : ℚ)

/-- Population variance (`numpy` default, ddof = 0). -/
def variancePop (xs : List ℚ) : ℚ :=
  ((xs.map fun x => (x - meanQ xs) ^ 2).sum) / (xs.length : ℚ)

/-- Sample variance (pandas `.std()` default, ddof = 1).  For lists of
length ≤ 1 the Python result is NaN; we return 0 there (no claim
exercises that case). -/
def varianceSample (xs : List ℚ) : ℚ :=
  if xs.length ≤ 1 then 0
  else ((xs.map fun x => (x - meanQ xs) ^ 2).sum) / ((xs.length : ℚ) - 1)

/-- Newton iteration for the integer square root, with structural fuel so
that the kernel can evaluate it (the recursion terminates long before the
fuel runs out). -/
def natSqrtIter : ℕ → ℕ → ℕ → ℕ
  | 0, _, guess => guess
  | fuel + 1, n, guess =>
    let next := (guess + n / guess) / 2
    if next < guess then natSqrtIter fuel n next else guess

/-- Integer square root (Newton's method, as in `Nat.sqrt`). -/
def natSqrt (n : ℕ) : ℕ := if n ≤ 1 then n else natSqrtIter n n (n / 2)

/-- Decide whether a natural number is a perfect square. -/
def isSquareNat (n : ℕ) : Bool := natSqrt n * natSqrt n == n

/-- Newton iteration for square roots on `ℚ`, used by `npSqrt` away from
perfect squares. -/
def sqrtNewton (q : ℚ) : ℕ → ℚ → ℚ
  | 0, x => x
  | n + 1, x => sqrtNewton q n ((x + q / x) / 2)

/-- Executable rational model of `numpy.sqrt`: exact on perfect squares of
rationals, Newton approximation elsewhere, 0 on non-positive input. -/
def npSqrt (q : ℚ) : ℚ :=
  if q ≤ 0 then 0
  else if isSquareNat q.num.toNat && isSquareNat q.den then
    (natSqrt q.num.toNat : ℚ) / (natSqrt q.den : ℚ)
  else sqrtNewton q 4 q

/-- Round a rational to the nearest integer, ties to the even integer
(the rounding of Python `round`). -/
def roundHalfEvenQ (x : ℚ) : ℤ :=
  if x - ⌊x⌋ < 1 / 2 then ⌊x⌋
  else if (1 : ℚ) / 2 < x - ⌊x⌋ then ⌊x⌋ + 1
  else if 2 ∣ ⌊x⌋ then ⌊x⌋ else ⌊x⌋ + 1

/-- Model of Python `round(x, 2)` on exact rationals. -/
def round2q (x : ℚ) : ℚ := (roundHalfEvenQ (100 * x) : ℚ) / 100

/-- Finite-map lookup with a default, modelling Python `dict.get(k, d)`. -/
def lookupD {α β : Type} [BEq α] (m : List (α × β)) (k : α) (d : β) : β :=
  (List.lookup k m).getD d

/-- Convert a day number (days since 1970-01-01) to (year, month, day) in
the proleptic Gregorian calendar (Howard Hinnant's `civil_from_days`
algorithm, the arithmetic behind pandas timestamp fields). -/
def civilFromDays (z : ℤ) : ℤ × ℕ × ℕ :=
  let z' := z + 719468
  let era : ℤ := Int.fdiv z' 146097
  let doe : ℕ := (z' - era * 146097).toNat
  let yoe : ℕ := (doe - doe / 1460 + doe / 36524 - doe / 146096) / 365
  let doy : ℕ := doe - (365 * yoe + yoe / 4 - yoe / 100)
  let mp : ℕ := (5 * doy + 2) / 153
  let d : ℕ := doy - (153 * mp + 2) / 5 + 1
  let m : ℕ := if mp < 10 then mp + 3 else mp - 9
  let y : ℤ := (yoe : ℤ) + era * 400 + (if m ≤ 2 then 1 else 0)
  (y, m, d)

/-- Day of week of a day number, pandas convention (Monday = 0
through Sunday = 6); day 0 = 1970-01-01 was a Thursday. -/
def dayOfWeek (z : ℤ) : ℕ := ((z + 3).emod 7).toNat

/-- Day of month (1–31) of a day number. -/
def dayOfMonth (z : ℤ) : ℕ := (civilFromDays z).2.2

/-- One entry of the known-format catalog of `app/services/csv_import.py`:
only the fields the claims touch (the name and the identifier-column set)
are modelled; the column mapping, date format and account metadata carried
by each entry do not participate in format detection. -/
structure KnownFormat where
  name : String
  identifier_columns : List String
deriving DecidableEq

/-- The `KNOWN_FORMATS` registry, in the source's insertion (iteration)
order. -/
def KNOWN_FORMATS : List KnownFormat :=
  [ ⟨"chase_credit", ["Transaction Date", "Post Date", "Description", "Amount"]⟩
  , ⟨"chase_checking", ["Details", "Posting Date", "Description", "Amount", "Balance"]⟩
  , ⟨"bank_of_america", ["Date", "Description", "Amount", "Running Bal."]⟩
  , ⟨"wells_fargo", ["Date", "Amount", "Description"]⟩
  , ⟨"capital_one", ["Transaction Date", "Posted Date", "Card No.", "Description", "Debit", "Credit"]⟩
  , ⟨"mint_export", ["Date", "Description", "Original Description", "Amount", "Transaction Type", "Category"]⟩
  ]

/-- Subset test `required.issubset(columns)` with column sets modelled as
lists (membership is all that matters). -/
def columnsSubset (required columns : List String) : Bool :=
  required.all fun c => columns.contains c

/-- Loop body of `detect_format`: walk the catalog in order, return the
first entry whose identifier columns are all present. -/
def detectFormatGo (columns : List String) : List KnownFormat → Option String
  | [] => none
  | f :: rest =>
    if columnsSubset f.identifier_columns columns then some f.name
    else detectFormatGo columns rest

/-- Model of `detect_format` (`app/services/csv_import.py`): identify a
CSV format from the set of column headers. -/
def detect_format (columns : List String) : Option String :=
  detectFormatGo columns KNOWN_FORMATS

/-- Characters removed by the `$`/`,` stripping step of `_parse_amount`
(Python `str.replace` of each symbol by the empty string). -/
def stripDollarComma (l : List Char) : List Char :=
  l.filter fun c => !(c = '$' || c = ',')

/-- Python `str.strip()` (ASCII whitespace) on a character list. -/
def pyStrip (l : List Char) : List Char :=
  ((l.dropWhile isSpaceChar).reverse.dropWhile isSpaceChar).reverse

/-- Digit run to a natural number (most significant first). -/
def digitsToNat (l : List Char) : ℕ :=
  l.foldl (fun acc c => 10 * acc + (c.toNat - '0'.toNat)) 0

/-- Split a character list at the first occurrence of a separator
character; returns the part before and (if the separator occurs) the part
after it. -/
def splitAtChar (sep : Char) : List Char → List Char × Option (List Char)
  | [] => ([], none)
  | c :: cs =>
    if c = sep then ([], some cs)
    else
      let r := splitAtChar sep cs
      (c :: r.1, r.2)

/-- Mantissa part of a Python float literal: `digits`, `digits.digits`,
`.digits` or `digits.` (at least one digit overall), as a rational. -/
def parseMantissa (l : List Char) : Option ℚ :=
  let p := splitAtChar '.' l
  let intPart := p.1
  let fracPart := (p.2).getD []
  if intPart.all Char.isDigit && fracPart.all Char.isDigit
      && (intPart.length + fracPart.length > 0) then
    some ((digitsToNat intPart : ℚ) + (digitsToNat fracPart : ℚ) / (10 ^ fracPart.length : ℕ))
  else none

/-- Optional leading sign; returns the sign as a rational factor and the
rest of the characters. -/
def parseSign : List Char → ℚ × List Char
  | '-' :: cs => (-1, cs)
  | '+' :: cs => (1, cs)
  | l => (1, l)

/-- Model of Python `float(s)` restricted to finite decimal literals with
optional sign and exponent (`inf`/`nan` spellings and `_` digit
separators are not modelled; no claim exercises them). -/
def pyFloat (l : List Char) : Option ℚ :=
  let s := parseSign l
  let e := splitAtChar 'e' (s.2.map fun c => if c = 'E' then 'e' else c)
  match parseMantissa e.1 with
  | none => none
  | some m =>
    match e.2 with
    | none => some (s.1 * m)
    | some expPart =>
      let es := parseSign expPart
      if es.2.all Char.isDigit && es.2.length > 0 then
        some (s.1 * m * (10 : ℚ) ^ ((if es.1 < 0 then -1 else 1) * (digitsToNat es.2 : ℤ)))
      else none

/-- Model of `_parse_amount` (`app/services/csv_import.py`).  The input is
the raw cell; `none` models a missing/NaN cell (`pd.isna`).  Returns
`none` where the Python function returns `None`. -/
def parse_amount (value : Option String) : Option ℚ :=
  match value with
  | none => none
  | some s =>
    let cleaned := pyStrip (stripDollarComma s.data)
    let cleaned :=
      if cleaned.head? = some '(' && cleaned.getLast? = some ')' then
        '-' :: (cleaned.drop 1).dropLast
      else cleaned
    if cleaned = [] || cleaned = ['-'] || cleaned = ['-', '-'] then some 0
    else pyFloat cleaned

/-- ASCII lower-casing of a character list (Python `str.lower`; inputs in
this development are ASCII). -/
def toLowerList (l : List Char) : List Char := l.map Char.toLower

/-- ASCII upper-casing of a character list (Python `str.upper`). -/
def toUpperList (l : List Char) : List Char := l.map Char.toUpper

/-- Accumulator loop implementing Python `str.split()` (split on
whitespace runs, dropping empty pieces). -/
def splitWsAcc (cur : List Char) : List Char → List (List Char)
  | [] => if cur.isEmpty then [] else [cur.reverse]
  | c :: cs =>
    if isSpaceChar c then
      if cur.isEmpty then splitWsAcc [] cs else cur.reverse :: splitWsAcc [] cs
    else splitWsAcc (c :: cur) cs

/-- Python `str.split()` on a character list. -/
def pySplitWs (l : List Char) : List (List Char) := splitWsAcc [] l

/-- Join word lists with single spaces (Python `" ".flatten(...)`). -/
def joinSpace : List (List Char) → List Char
  | [] => []
  | [w] => w
  | w :: ws => w ++ ' ' :: joinSpace ws

/-- The `" ".flatten(text.split())` whitespace-collapsing idiom. -/
def collapseJoin (l : List Char) : List Char := joinSpace (pySplitWs l)

/-- Python `str.title()` on a character list: upper-case every letter that
follows a non-letter, lower-case every other letter. -/
def pyTitleGo (prevAlpha : Bool) : List Char → List Char
  | [] => []
  | c :: cs =>
    (if c.isAlpha then (if prevAlpha then c.toLower else c.toUpper) else c)
      :: pyTitleGo c.isAlpha cs

/-- Python `str.title()`. -/
def pyTitle (l : List Char) : List Char := pyTitleGo false l

/-- Does the character list begin with a whitespace run followed by at
least `minD` digits?  (The anchored head of the pattern `\s+\d{minD,}`.) -/
def matchWsDigits (minD : ℕ) (l : List Char) : Bool :=
  let rest := l.dropWhile isSpaceChar
  rest.length < l.length && minD ≤ (rest.takeWhile Char.isDigit).length

/-- Does the character list begin with a whitespace run, `#`, then at
least one digit?  (Head of `\s+#\d+`.) -/
def matchWsHashDigits (l : List Char) : Bool :=
  let rest := l.dropWhile isSpaceChar
  rest.length < l.length && rest.head? = some '#'
    && 1 ≤ ((rest.drop 1).takeWhile Char.isDigit).length

/-- Does the character list begin with a whitespace run, one or more `*`,
then at least one digit?  (Head of `\s+\*+\d+`.) -/
def matchWsStarsDigits (l : List Char) : Bool :=
  let rest := l.dropWhile isSpaceChar
  let stars := rest.takeWhile fun c => c = '*'
  rest.length < l.length && 1 ≤ stars.length
    && 1 ≤ ((rest.drop stars.length).takeWhile Char.isDigit).length

/-- Truncate a character list at the leftmost position where `m` matches
(modelling `re.sub(pattern-to-end-of-string, "", text)` for the three
trailing-junk patterns of `_extract_merchant`). -/
def cutAtMatch (m : List Char → Bool) : List Char → List Char
  | [] => []
  | c :: cs => if m (c :: cs) then [] else c :: cutAtMatch m cs

/-- Model of `_extract_merchant` (`app/services/csv_import.py`): derive a
merchant name from a transaction description. -/
def extract_merchant (description : String) : String :=
  let prefixes : List (List Char) :=
    ["POS ".data, "ACH ".data, "DEBIT ".data, "CREDIT ".data,
     "PURCHASE ".data, "CHECKCARD ".data]
  let text := toUpperList description.data
  let text := prefixes.foldl
    (fun t p => if p.isPrefixOf t then t.drop p.length else t) text
  let text := cutAtMatch (matchWsDigits 4) text
  let text := cutAtMatch matchWsHashDigits text
  let text := cutAtMatch matchWsStarsDigits text
  let text := collapseJoin text
  String.mk ((pyTitle text).take 200)

/-- Positional layout of a date format string: which of year, month, day
each of the three separated fields denotes. -/
inductive DateField
  | month
  | day
  | year4
  | year2
deriving DecidableEq

/-- One `strptime` format of the shapes used by `_parse_date` (three
numeric fields joined by a single separator character). -/
structure DateFmt where
  sep : Char
  f1 : DateField
  f2 : DateField
  f3 : DateField

/-- The format list tried by `_parse_date` when `date_format == "auto"`,
in source order: `%m/%d/%Y`, `%m/%d/%y`, `%Y-%m-%d`, `%m-%d-%Y`,
`%d/%m/%Y`, `%Y/%m/%d`. -/
def AUTO_DATE_FORMATS : List DateFmt :=
  [ ⟨'/', .month, .day, .year4⟩
  , ⟨'/', .month, .day, .year2⟩
  , ⟨'-', .year4, .month, .day⟩
  , ⟨'-', .month, .day, .year4⟩
  , ⟨'/', .day, .month, .year4⟩
  , ⟨'/', .year4, .month, .day⟩
  ]

/-- Maximum digit count `strptime` accepts for a field (`%m`/`%d`/`%y`:
1–2 digits, `%Y`: 1–4 digits). -/
def fieldMaxDigits : DateField → ℕ
  | .year4 => 4
  | _ => 2

/-- Gregorian leap-year test. -/
def isLeapYear (y : ℤ) : Bool := y % 4 = 0 && (y % 100 ≠ 0 || y % 400 = 0)

/-- Number of days in a month (Gregorian). -/
def daysInMonth (y : ℤ) (m : ℕ) : ℕ :=
  if m = 2 then (if isLeapYear y then 29 else 28)
  else if m = 4 || m = 6 || m = 9 || m = 11 then 30
  else 31

/-- Interpret one parsed numeric field according to its kind, adding it to
a partial (year?, month?, day?) triple.  `%y` maps 0–68 to 2000+ and
69–99 to 1900+ (the CPython pivot). -/
def applyDateField (acc : Option ℤ × Option ℕ × Option ℕ) (f : DateField) (v : ℕ) :
    Option ℤ × Option ℕ × Option ℕ :=
  match f with
  | .month => (acc.1, some v, acc.2.2)
  | .day => (acc.1, acc.2.1, some v)
  | .year4 => (some (v : ℤ), acc.2.1, acc.2.2)
  | .year2 => (some (if v ≤ 68 then 2000 + (v : ℤ) else 1900 + (v : ℤ)), acc.2.1, acc.2.2)

/-- Parse one field of a date string: all digits, nonempty, within the
field's digit budget. -/
def parseDateFieldChars (f : DateField) (l : List Char) : Option ℕ :=
  if l.all Char.isDigit && 1 ≤ l.length && l.length ≤ fieldMaxDigits f then
    some (digitsToNat l)
  else none

/-- Model of one `datetime.strptime(s, fmt)` attempt for the formats of
`AUTO_DATE_FORMATS`, including `datetime`'s range validation of the
resulting (year, month, day). -/
def strptimeFmt (fmt : DateFmt) (l : List Char) : Option (ℤ × ℕ × ℕ) :=
  let p1 := splitAtChar fmt.sep l
  match p1.2 with
  | none => none
  | some rest1 =>
    let p2 := splitAtChar fmt.sep rest1
    match p2.2 with
    | none => none
    | some part3 =>
      if part3.contains fmt.sep then none
      else
        match parseDateFieldChars fmt.f1 p1.1, parseDateFieldChars fmt.f2 p2.1,
            parseDateFieldChars fmt.f3 part3 with
        | some v1, some v2, some v3 =>
          let acc := applyDateField (applyDateField
            (applyDateField (none, none, none) fmt.f1 v1) fmt.f2 v2) fmt.f3 v3
          match acc with
          | (some y, some m, some d) =>
            if 1 ≤ y && y ≤ 9999 && 1 ≤ m && m ≤ 12 && 1 ≤ d && d ≤ daysInMonth y m then
              some (y, m, d)
            else none
          | _ => none
        | _, _, _ => none

/-- Left-pad a numeral with zeros to the given width. -/
def padZeros (width : ℕ) (s : String) : String :=
  String.mk (List.replicate (width - s.length) '0') ++ s

/-- Render (year, month, day) as `YYYY-MM-DD` (the `strftime("%Y-%m-%d")`
of `_parse_date`). -/
def formatISO (y : ℤ) (m d : ℕ) : String :=
  padZeros 4 (toString y.toNat) ++ "-" ++ padZeros 2 (toString m) ++ "-"
    ++ padZeros 2 (toString d)

/-- Model of `_parse_date` (`app/services/csv_import.py`): try each format
in order, normalize the first success to `YYYY-MM-DD`.  The format list
argument stands for the `date_format` parameter (`AUTO_DATE_FORMATS`
models `"auto"`). -/
def parse_date (dateStr : String) (fmts : List DateFmt) : Option String :=
  match fmts with
  | [] => none
  | fmt :: rest =>
    match strptimeFmt fmt (pyStrip dateStr.data) with
    | some (y, m, d) => some (formatISO y m d)
    | none => parse_date dateStr rest

/-- Amount-handling mode of `parse_csv`. -/
inductive AmountHandling
  | signed
  | separate
  | type_column
deriving DecidableEq

/-- One raw CSV row as seen by `parse_csv`, restricted to the mapped
columns: `none` models a missing column or NaN cell.  `debit`, `credit`
and `typ` are the cells of the mode-specific columns; `original` is the
cell of the optional original-description column. -/
structure RawRow where
  date : Option String
  amount : Option String
  description : Option String
  original : Option String
  debit : Option String
  credit : Option String
  typ : Option String

/-- Canonical transaction produced by `parse_csv`. -/
structure CanonicalTxn where
  date : String
  amount : ℚ
  description : String
  original_description : String
  merchant : String
deriving DecidableEq

/-- Substring test on character lists (Python `in` on strings). -/
def containsSub (pat l : List Char) : Bool :=
  (List.range (l.length + 1)).any fun i => pat.isPrefixOf (l.drop i)

/-- Process one row of `parse_csv`.  `.ok none` models a dropped row
(`continue`, including the `except (KeyError, ValueError)` path);
`.ok (some t)` a produced transaction; `.error` an exception that the
`except` clause does not catch and that therefore propagates out of
`parse_csv` (the `TypeError` of `abs(None)` in `type_column` handling). -/
def parseCsvRow (handling : AmountHandling) (useOrig : Bool) (fmts : List DateFmt)
    (row : RawRow) : Except String (Option CanonicalTxn) :=
  match row.date with
  | none => .ok none
  | some dateCell =>
    match parse_date (String.mk (pyStrip dateCell.data)) fmts with
    | none => .ok none
    | some date =>
      let amountR : Except String (Option ℚ) :=
        match handling with
        | .signed => .ok (parse_amount row.amount)
        | .separate =>
          let debit := (parse_amount row.debit).getD 0
          let credit := (parse_amount row.credit).getD 0
          .ok (some (credit - debit))
        | .type_column =>
          match parse_amount row.amount with
          | none => .error "TypeError"
          | some a =>
            let txnType := toLowerList ((row.typ).getD "").data
            if containsSub "debit".data txnType || containsSub "expense".data txnType then
              .ok (some (-|a|))
            else .ok (some |a|)
      match amountR with
      | .error e => .error e
      | .ok none => .ok none
      | .ok (some amount) =>
        match row.description with
        | none => .ok none
        | some descCell =>
          let description := String.mk (pyStrip descCell.data)
          let origCell := if useOrig then row.original else row.description
          let original := String.mk (pyStrip (origCell.getD description).data)
          .ok (some ⟨date, amount, description, original, extract_merchant description⟩)

/-- Model of `parse_csv` (`app/services/csv_import.py`): normalize raw
rows into canonical transactions, dropping unparseable rows; an uncaught
exception in any row aborts the whole call (`.error`). -/
def parse_csv (handling : AmountHandling) (useOrig : Bool) (fmts : List DateFmt) :
    List RawRow → Except String (List CanonicalTxn)
  | [] => .ok []
  | row :: rest =>
    match parseCsvRow handling useOrig fmts row with
    | .error e => .error e
    | .ok o =>
      match parse_csv handling useOrig fmts rest with
      | .error e => .error e
      | .ok ts => .ok (match o with | none => ts | some t => t :: ts)

/-- UTF-8 encoding of one character (code point) as bytes. -/
def utf8EncodeChar (c : Char) : List ℕ :=
  let n := c.toNat
  if n < 128 then [n]
  else if n < 2048 then [192 + n / 64, 128 + n % 64]
  else if n < 65536 then [224 + n / 4096, 128 + (n / 64) % 64, 128 + n % 64]
  else [240 + n / 262144, 128 + (n / 4096) % 64, 128 + (n / 64) % 64, 128 + n % 64]

/-- UTF-8 encoding of a string (Python `str.encode()`). -/
def utf8Encode (s : String) : List ℕ := (s.data.map utf8EncodeChar).flatten

/-- Reduction of a natural number into the 32-bit word range. -/
def w32 (n : ℕ) : ℕ := n % 4294967296

/-- Right rotation of a 32-bit word. -/
def rotr32 (k n : ℕ) : ℕ := w32 ((n >>> k) ||| (n <<< (32 - k)))

/-- Bitwise complement within 32 bits (valid for `n < 2^32`). -/
def not32 (n : ℕ) : ℕ := 4294967295 - n

/-- SHA-256 round constants. -/
def shaK : List ℕ :=
  [
    1116352408, 1899447441, 3049323471, 3921009573, 961987163, 1508970993,
    2453635748, 2870763221, 3624381080, 310598401, 607225278, 1426881987,
    1925078388, 2162078206, 2614888103, 3248222580, 3835390401, 4022224774,
    264347078, 604807628, 770255983, 1249150122, 1555081692, 1996064986,
    2554220882, 2821834349, 2952996808, 3210313671, 3336571891, 3584528711,
    113926993, 338241895, 666307205, 773529912, 1294757372, 1396182291,
    1695183700, 1986661051, 2177026350, 2456956037, 2730485921, 2820302411,
    3259730800, 3345764771, 3516065817, 3600352804, 4094571909, 275423344,
    430227734, 506948616, 659060556, 883997877, 958139571, 1322822218,
    1537002063, 1747873779, 1955562222, 2024104815, 2227730452, 2361852424,
    2428436474, 2756734187, 3204031479, 3329325298]

/-- SHA-256 initial hash state. -/
def shaH0 : List ℕ :=
  [1779033703, 3144134277, 1013904242, 2773480762, 1359893119, 2600822924, 528734635, 1541459225]

/-- SHA-256 message padding: append `0x80`, zeros to 56 mod 64, then the
bit length as 8 big-endian bytes. -/
def shaPad (msg : List ℕ) : List ℕ :=
  let L := msg.length
  let r := (L + 1) % 64
  let k := (56 + 64 - r) % 64
  msg ++ [128] ++ List.replicate k 0
    ++ ([56, 48, 40, 32, 24, 16, 8, 0].map fun s => ((8 * L) >>> s) % 256)

/-- Split a byte list into 64-byte blocks (structural fuel; each step
consumes 64 bytes, so `l.length` steps always suffice). -/
def shaChunksGo : ℕ → List ℕ → List (List ℕ)
  | 0, _ => []
  | fuel + 1, l => if l = [] then [] else l.take 64 :: shaChunksGo fuel (l.drop 64)

/-- Split a byte list into 64-byte blocks. -/
def shaChunks (l : List ℕ) : List (List ℕ) := shaChunksGo (l.length + 1) l

/-- Combine 4 consecutive bytes (big-endian) into 32-bit words. -/
def bytesToWords : List ℕ → List ℕ
  | b0 :: b1 :: b2 :: b3 :: rest =>
    ((b0 <<< 24) + (b1 <<< 16) + (b2 <<< 8) + b3) :: bytesToWords rest
  | _ => []

/-- Small σ₀ of the SHA-256 message schedule. -/
def ssig0 (x : ℕ) : ℕ := rotr32 7 x ^^^ rotr32 18 x ^^^ (x >>> 3)

/-- Small σ₁ of the SHA-256 message schedule. -/
def ssig1 (x : ℕ) : ℕ := rotr32 17 x ^^^ rotr32 19 x ^^^ (x >>> 10)

/-- Big Σ₀ of the SHA-256 compression function. -/
def bsig0 (x : ℕ) : ℕ := rotr32 2 x ^^^ rotr32 13 x ^^^ rotr32 22 x

/-- Big Σ₁ of the SHA-256 compression function. -/
def bsig1 (x : ℕ) : ℕ := rotr32 6 x ^^^ rotr32 11 x ^^^ rotr32 25 x

/-- Extend the 16-word schedule by `n` further words. -/
def extendSchedule : ℕ → List ℕ → List ℕ
  | 0, w => w
  | n + 1, w =>
    extendSchedule n (w ++ [w32 (ssig1 (w.getD (w.length - 2) 0) + w.getD (w.length - 7) 0
      + ssig0 (w.getD (w.length - 15) 0) + w.getD (w.length - 16) 0)])

/-- One round of the SHA-256 compression function on the 8-register
state. -/
def shaRound (st : List ℕ) (kw : ℕ) : List ℕ :=
  match st with
  | [a, b, c, d, e, f, g, hh] =>
    let ch := (e &&& f) ^^^ (not32 e &&& g)
    let t1 := w32 (hh + bsig1 e + ch + kw)
    let maj := (a &&& b) ^^^ (a &&& c) ^^^ (b &&& c)
    let t2 := w32 (bsig0 a + maj)
    [w32 (t1 + t2), a, b, c, w32 (d + t1), e, f, g]
  | other => other

/-- Process one 64-byte block into the running hash state. -/
def shaProcessBlock (hsh : List ℕ) (block : List ℕ) : List ℕ :=
  let w := extendSchedule 48 (bytesToWords block)
  let st := (List.zipWith (fun k x => w32 (k + x)) shaK w).foldl shaRound hsh
  List.zipWith (fun x y => w32 (x + y)) hsh st

/-- SHA-256 digest (as 32 bytes) of a byte list. -/
def sha256Bytes (msg : List ℕ) : List ℕ :=
  let final := (shaChunks (shaPad msg)).foldl shaProcessBlock shaH0
  (final.map fun wd => [(wd >>> 24) % 256, (wd >>> 16) % 256, (wd >>> 8) % 256, wd % 256]).flatten

/-- Lower-case hex digit. -/
def hexDigit (n : ℕ) : Char :=
  if n < 10 then Char.ofNat (48 + n) else Char.ofNat (87 + n)

/-- Lower-case hex rendering of a byte list (Python `hexdigest()`). -/
def bytesToHex (bs : List ℕ) : String :=
  String.mk ((bs.map fun b => [hexDigit (b / 16), hexDigit (b % 16)]).flatten)

/-- SHA-256 hex digest of a string (the `hashlib.sha256(s.encode()).hexdigest()`
composite). -/
def sha256Hex (s : String) : String := bytesToHex (sha256Bytes (utf8Encode s))

/-- Model of the Python float format `f"{amount:.2f}"` on exact rationals:
round-half-even to cents, render with exactly two decimals, keeping the
sign of the original value (so `-0.001` renders as `-0.00`). -/
def formatTwoDecimals (a : ℚ) : String :=
  let cents := (roundHalfEvenQ (100 * |a|)).toNat
  (if a < 0 then "-" else "") ++ toString (cents / 100) ++ "."
    ++ padZeros 2 (toString (cents % 100))

/-- Model of `generate_import_hash` (`app/services/csv_import.py`):
deduplication fingerprint of (date, amount, description, account). -/
def generate_import_hash (date : String) (amount : ℚ) (description : String)
    (account_id : ℤ) : String :=
  let normalized := String.mk (joinSpace (pySplitWs (toLowerList description.data)))
  let unique_string :=
    date ++ "|" ++ formatTwoDecimals amount ++ "|" ++ normalized ++ "|" ++ toString account_id
  sha256Hex unique_string

/-- Remove every occurrence of a marker character followed by one or more
digits (the regexes `\*\d+` and `#\d+` of `_normalize_merchant`; the digit
run is taken greedily, as `re.sub` does).  Structural fuel: every
recursive call consumes at least one character, so the initial length
suffices. -/
def removeMarkDigitsGo (mark : Char) : ℕ → List Char → List Char
  | 0, l => l
  | _, [] => []
  | fuel + 1, c :: cs =>
    if c = mark && 1 ≤ (cs.takeWhile Char.isDigit).length then
      removeMarkDigitsGo mark fuel (cs.dropWhile Char.isDigit)
    else c :: removeMarkDigitsGo mark fuel cs

/-- Remove every `mark`-then-digits occurrence (`\*\d+`, `#\d+`). -/
def removeMarkDigits (mark : Char) (l : List Char) : List Char :=
  removeMarkDigitsGo mark l.length l

/-- Split off the leading digit run of a character list. -/
def splitDigitRun : List Char → List Char × List Char
  | [] => ([], [])
  | c :: cs =>
    if c.isDigit then
      let r := splitDigitRun cs
      (c :: r.1, r.2)
    else ([], c :: cs)

/-- Loop of `removeLongDigitRuns`, with structural fuel (every recursive
call consumes at least one character). -/
def removeLongDigitRunsGo : ℕ → List Char → List Char
  | 0, l => l
  | _, [] => []
  | fuel + 1, c :: cs =>
    if c.isDigit then
      let r := splitDigitRun (c :: cs)
      (if 6 ≤ r.1.length then [] else r.1) ++ removeLongDigitRunsGo fuel r.2
    else c :: removeLongDigitRunsGo fuel cs

/-- Remove every maximal run of 6 or more digits (the regex `\d\x7b6,\x7d` of
`_normalize_merchant`). -/
def removeLongDigitRuns (l : List Char) : List Char :=
  removeLongDigitRunsGo l.length l

/-- Loop of `removeLit`, with structural fuel (every recursive call
consumes at least one character). -/
def removeLitGo (p : Char) (ps : List Char) : ℕ → List Char → List Char
  | 0, l => l
  | _, [] => []
  | fuel + 1, c :: cs =>
    if (p :: ps).isPrefixOf (c :: cs) then removeLitGo p ps fuel (cs.drop ps.length)
    else c :: removeLitGo p ps fuel cs

/-- Remove every occurrence of a fixed nonempty literal (the regexes
`\.com`, `\.net`, `\.org`, with the dot escaped, of
`_normalize_merchant`). -/
def removeLit (p : Char) (ps : List Char) (l : List Char) : List Char :=
  removeLitGo p ps l.length l

/-- Drop whitespace at the end of a character list. -/
def dropTrailingWs (l : List Char) : List Char :=
  (l.reverse.dropWhile isSpaceChar).reverse

/-- Remove an end-anchored suffix pattern `\s+word\.?$` (or `\s+word$`
when `optDot` is false): the word, an optional trailing dot, and the
whole whitespace run before it, when present at the end. -/
def dropWordSuffix (word : List Char) (optDot : Bool) (l : List Char) : List Char :=
  let body : Option (List Char) :=
    if optDot && (word ++ ['.']).isSuffixOf l then
      some (l.take (l.length - (word.length + 1)))
    else if word.isSuffixOf l then some (l.take (l.length - word.length))
    else none
  match body with
  | none => l
  | some b =>
    let trimmed := dropTrailingWs b
    if trimmed.length < b.length then trimmed else l

/-- Remove a start-anchored pattern `^word\s+`: the word and the
whitespace run after it, when present at the start. -/
def dropWordLead (word : List Char) (l : List Char) : List Char :=
  if word.isPrefixOf l then
    let rest := l.drop word.length
    let rest2 := rest.dropWhile isSpaceChar
    if rest2.length < rest.length then rest2 else l
  else l

/-- Keep lower-case letters, digits and whitespace, replacing every other
character by a space (the regex `[^a-z0-9\s]` → `" "`). -/
def keepAlnumSpace (l : List Char) : List Char :=
  l.map fun c =>
    if ('a' ≤ c && c ≤ 'z') || c.isDigit || isSpaceChar c then c else ' '

/-- Model of `RecurringExpenseDetector._normalize_merchant`
(`app/ml/recurring_detector.py`): the ordered noise-stripping rule chain
over a lower-cased description, then restriction to alphanumerics and
collapse, truncated to 50 characters. -/
def normalize_merchant (description : String) : String :=
  let text := toLowerList description.data
  let text := removeMarkDigits '*' text
  let text := removeMarkDigits '#' text
  let text := removeLongDigitRuns text
  let text := removeLit '.' "com".data text
  let text := removeLit '.' "net".data text
  let text := removeLit '.' "org".data text
  let text := dropWordSuffix "inc".data true text
  let text := dropWordSuffix "llc".data true text
  let text := dropWordSuffix "ltd".data true text
  let text := dropWordSuffix "usa".data false text
  let text := dropWordSuffix "us".data false text
  let text := dropWordLead "pos".data text
  let text := dropWordLead "ach".data text
  let text := dropWordLead "debit".data text
  let text := dropWordLead "purchase".data text
  let text := keepAlnumSpace text
  let text := collapseJoin text
  String.mk ((pyStrip text).take 50)

/-- Transaction record consumed by the recurring-expense detector: a date
(day number), an amount and a description. -/
structure DetectorTxn where
  date : ℤ
  amount : ℚ
  description : String
deriving DecidableEq

/-- Candidate emitted by the recurring-expense detector
(`next_expected_date`, `first_seen`, `last_seen` kept as day numbers
rather than formatted strings). -/
structure RecurringCandidate where
  merchant : String
  average_amount : ℚ
  frequency_days : ℤ
  frequency_type : String
  confidence : ℚ
  next_expected_date : ℤ
  occurrences : ℕ
  first_seen : ℤ
  last_seen : ℤ
deriving DecidableEq

namespace RecurringExpenseDetector

/-- The `FREQUENCIES` table of standard billing cycles, in source order. -/
def FREQUENCIES : List (String × ℤ) :=
  [("weekly", 7), ("biweekly", 14), ("monthly", 30), ("quarterly", 91), ("yearly", 365)]

/-- Successive differences of a list (the day gaps
`dates.diff().dt.days.dropna()` of a sorted date list). -/
def consecDiffs : List ℤ → List ℤ
  | a :: b :: rest => (b - a) :: consecDiffs (b :: rest)
  | _ => []

/-- Model of `_detect_frequency`: find the standard cycle closest to the
mean gap, accepting it only within a quarter of the cycle length; returns
(type, days, interval consistency). -/
def detect_frequency (intervals : List ℚ) : Option (String × ℤ × ℚ) :=
  let mean_interval := meanQ intervals
  let std_interval := npSqrt (variancePop intervals)
  let best := FREQUENCIES.foldl
    (fun acc p =>
      let diff := |mean_interval - (p.2 : ℚ)|
      if (match acc with
          | none => true
          | some q => decide (diff < q.2)) && diff < (p.2 : ℚ) * (1 / 4) then
        some (p, diff)
      else acc)
    none
  match best with
  | none => none
  | some (p, _) =>
    let consistency := if 0 < mean_interval then 1 - std_interval / mean_interval else 0
    some (p.1, p.2, max 0 (min 1 consistency))

/-- Model of `_calculate_confidence`: weighted score from amount
consistency (0–0.3), interval consistency (0–0.4) and occurrence count
(0–0.3, saturating at 6), clamped to 1. -/
def calculate_confidence (amount_consistent : Bool) (amount_cv : ℚ)
    (interval_consistency : ℚ) (num_occurrences : ℕ) : ℚ :=
  let score := (if amount_consistent then (3 : ℚ) / 10 else max 0 (3 / 10 - amount_cv * (1 / 2)))
    + (2 / 5) * interval_consistency
    + (3 / 10) * min ((num_occurrences : ℚ) / 6) 1
  min score 1

/-- Model of `_analyze_merchant`: test one merchant group for a recurring
pattern, producing a candidate with its confidence score. -/
def analyze_merchant (merchant : String) (group : List DetectorTxn) :
    Option RecurringCandidate :=
  if merchant = "" || merchant.length < 2 then none
  else
    let amounts := group.map (·.amount)
    let dates := List.insertionSort (fun a b : ℤ => a ≤ b) (group.map (·.date))
    let mean_amount := meanQ amounts
    if mean_amount = 0 then none
    else
      let amount_std := npSqrt (variancePop amounts)
      let amount_cv := amount_std / |mean_amount|
      let amount_consistent := amount_cv < 3 / 20
      let intervals := (consecDiffs dates).map fun d : ℤ => (d : ℚ)
      if intervals.length < 2 then none
      else
        match detect_frequency intervals with
        | none => none
        | some (ftype, fdays, consistency) =>
          let confidence :=
            calculate_confidence amount_consistent amount_cv consistency group.length
          let last_date := (dates.getLast?).getD 0
          some
            { merchant := String.mk (pyTitle merchant.data)
            , average_amount := round2q mean_amount
            , frequency_days := fdays
            , frequency_type := ftype
            , confidence := round2q confidence
            , next_expected_date := last_date + fdays
            , occurrences := group.length
            , first_seen := (dates.head?).getD 0
            , last_seen := last_date }

/-- Lexicographic (code-point) order on character lists, the order Python
uses to compare strings; pandas `groupby` sorts group keys by it. -/
def charListLE : List Char → List Char → Bool
  | [], _ => true
  | _ :: _, [] => false
  | a :: as, b :: bs => if a < b then true else if b < a then false else charListLE as bs

/-- Descending-confidence order used for the final
`recurring.sort(key=..., reverse=True)` (stable, as Python's sort is). -/
def confGE (a b : RecurringCandidate) : Prop := b.confidence ≤ a.confidence

instance : DecidableRel confGE := fun a b => inferInstanceAs (Decidable (_ ≤ _))

instance : IsTotal RecurringCandidate confGE :=
  ⟨fun a b => le_total b.confidence a.confidence⟩

instance : IsTrans RecurringCandidate confGE :=
  ⟨fun _ _ _ hab hbc => le_trans hbc hab⟩

/-- Per-group step of the `detect` loop: skip groups smaller than
`min_occurrences`, analyze the rest, and keep only candidates whose
confidence exceeds 0.5. -/
def detectGroup (min_occurrences : ℕ) (kg : String × List DetectorTxn) :
    Option RecurringCandidate :=
  if kg.2.length < min_occurrences then none
  else
    match analyze_merchant kg.1 kg.2 with
    | none => none
    | some r => if r.confidence > 1 / 2 then some r else none

/-- Model of `RecurringExpenseDetector.detect`
(`app/ml/recurring_detector.py`): group transactions by normalized
merchant (pandas `groupby` iterates keys in sorted order), analyze each
large-enough group, keep candidates with confidence above 0.5, and sort
by descending confidence. -/
def detect (min_occurrences : ℕ) (transactions : List DetectorTxn) :
    List RecurringCandidate :=
  if transactions = [] then []
  else
    let keys := List.insertionSort (fun a b : String => charListLE a.data b.data)
      ((transactions.map fun t => normalize_merchant t.description).dedup)
    let groups := keys.map fun k =>
      (k, transactions.filter fun t => normalize_merchant t.description = k)
    let recurring := groups.filterMap (detectGroup min_occurrences)
    List.insertionSort confGE recurring

end RecurringExpenseDetector

namespace SpendingForecaster

/-- Trained per-category model of the spending forecaster.  Only the
`average` tier is embedded: the two ridge tiers are fitted by the sklearn
solver, whose training is outside the scope of this development, and no
claim exercises them. -/
inductive CategoryModel
  | average (value : ℚ) (std : ℚ)
deriving DecidableEq

/-- Model of the `len(data) < 2` branch of
`SpendingForecaster._train_category` (`app/ml/spending_forecast.py`):
store the mean of the monthly totals and their std, the std being 0
whenever fewer than two buckets exist (inside this branch the
`len(data) > 1` test is always false, so the stored std is always 0). -/
def train_category_average (totals : List ℚ) : CategoryModel :=
  .average (meanQ totals)
    (if 1 < totals.length then npSqrt (varianceSample totals) else 0)

/-- Add a month offset to a (year, month) pair (`pd.DateOffset(months=i)`
as far as the `%Y-%m` label is concerned). -/
def addMonths (y : ℤ) (m : ℕ) (i : ℕ) : ℤ × ℕ :=
  (y + ((m - 1 + i : ℕ) / 12 : ℕ), (m - 1 + i) % 12 + 1)

/-- Render a (year, month) pair as the `%Y-%m` label. -/
def formatYM (ym : ℤ × ℕ) : String :=
  padZeros 4 (toString ym.1.toNat) ++ "-" ++ padZeros 2 (toString ym.2)

/-- One month-ahead forecast entry produced by
`SpendingForecaster.predict`. -/
structure SPrediction where
  month : String
  predicted_amount : ℚ
  lower_bound : ℚ
  upper_bound : ℚ
deriving DecidableEq

/-- Model of `SpendingForecaster.predict` (`app/ml/spending_forecast.py`)
over the trained-model map (`self.models`): empty list for an untrained
category; for the `average` tier, point estimate = stored value with a
`0.2 × point` substitute spread when the stored std is not positive,
bounds at ±1.96 spread, non-negativity clamps, and cent rounding.
`today` is the (year, month) of `pd.Timestamp.today()`. -/
def predict (models : List (ℤ × CategoryModel)) (category_id : ℤ)
    (months_ahead : ℕ) (today : ℤ × ℕ) : List SPrediction :=
  match List.lookup category_id models with
  | none => []
  | some (.average value std0) =>
    (List.range months_ahead).map fun k =>
      let i := k + 1
      let ym := addMonths today.1 today.2 i
      let pred := value
      let std := if std0 > 0 then std0 else pred * (2 / 10)
      let pred := max 0 pred
      let lower := max 0 (pred - (196 / 100) * std)
      let upper := pred + (196 / 100) * std
      ⟨formatYM ym, round2q pred, round2q lower, round2q upper⟩

end SpendingForecaster

/-- One recurring-expense entry as consumed by the cashflow forecaster
(the dicts produced by the recurring detector): `next_expected_date` is
`none` when the stored date string does not parse as a timestamp (the
`except` branch of `_is_recurring_due`). -/
structure RecurringEntry where
  average_amount : ℚ
  frequency_days : ℤ
  next_expected_date : Option ℤ
deriving DecidableEq

/-- Transaction record consumed by the cashflow forecaster. -/
structure CTxn where
  date : ℤ
  amount : ℚ
deriving DecidableEq

namespace CashflowForecaster

/-- State of a `CashflowForecaster` instance: learned day-of-week and
day-of-month mean flows, overall mean/std of daily flow, the recurring
list, and the trained flag. -/
structure CState where
  daily_pattern : List (ℕ × ℚ)
  monthly_pattern : List (ℕ × ℚ)
  avg_daily_flow : ℚ
  std_daily_flow : ℚ
  recurring : List RecurringEntry
  is_trained : Bool
deriving DecidableEq

/-- The `__init__` state (the `recurring` attribute is only created by
`train`; before that no recurring expenses exist, modelled as `[]`). -/
def init : CState := ⟨[], [], 0, 0, [], false⟩

/-- Model of `CashflowForecaster.train` (`app/ml/cashflow_forecast.py`):
aggregate to daily net flow over the filled date range, learn day-of-week
and day-of-month mean flows and the overall mean and (sample) std of the
daily flow.  An empty transaction list leaves the state unchanged (the
early return). -/
def train (st : CState) (transactions : List CTxn)
    (recurring_expenses : Option (List RecurringEntry)) : CState :=
  if transactions = [] then st
  else
    let recurring := recurring_expenses.getD []
    let dates := transactions.map (·.date)
    let dmin := (dates.minimum?).getD 0
    let dmax := (dates.maximum?).getD 0
    let days := (List.range (dmax - dmin + 1).toNat).map fun k : ℕ => dmin + (k : ℤ)
    let dayFlows := days.map fun d =>
      (d, ((transactions.filter fun t => t.date = d).map (·.amount)).sum)
    let flows := dayFlows.map (·.2)
    let dowKeys := List.insertionSort (fun a b : ℕ => a ≤ b)
      ((days.map dayOfWeek).eraseDups)
    let daily_pattern := dowKeys.map fun w =>
      (w, meanQ ((dayFlows.filter fun p => dayOfWeek p.1 = w).map (·.2)))
    let domKeys := List.insertionSort (fun a b : ℕ => a ≤ b)
      ((days.map dayOfMonth).eraseDups)
    let monthly_pattern := domKeys.map fun m =>
      (m, meanQ ((dayFlows.filter fun p => dayOfMonth p.1 = m).map (·.2)))
    { daily_pattern := daily_pattern
    , monthly_pattern := monthly_pattern
    , avg_daily_flow := meanQ flows
    , std_daily_flow := npSqrt (varianceSample flows)
    , recurring := recurring
    , is_trained := true }

/-- Model of `CashflowForecaster._is_recurring_due`: a recurring expense
is due on a date iff the day difference from its next expected date is
non-negative and falls within 3 days after a whole number of cycles
(Python `%` on a positive modulus coincides with `Int.emod`). -/
def is_recurring_due (rec : RecurringEntry) (date : ℤ) : Bool :=
  match rec.next_expected_date with
  | none => false
  | some nd =>
    let days_diff := date - nd
    decide (0 ≤ days_diff ∧ days_diff % rec.frequency_days < 3)

/-- Model of `CashflowForecaster._get_recurring_flow`: total
`average_amount` of the recurring expenses due on a date. -/
def get_recurring_flow (recs : List RecurringEntry) (date : ℤ) : ℚ :=
  recs.foldl (fun total rec =>
    if is_recurring_due rec date then total + rec.average_amount else total) 0

/-- The `uncertainty` of prediction day `i`
(`std_daily_flow * np.sqrt(i) * 0.5`), with the square-root routine
abstracted as `sq`. -/
def uncertaintyAt (sq : ℚ → ℚ) (std : ℚ) (i : ℕ) : ℚ :=
  std * sq (i : ℚ) * (1 / 2)

/-- One daily forecast entry produced by `CashflowForecaster.predict`. -/
structure CPrediction where
  date : ℤ
  predicted_balance : ℚ
  daily_flow : ℚ
  lower_bound : ℚ
  upper_bound : ℚ
deriving DecidableEq

/-- Forecast-loop body of `CashflowForecaster.predict`: `remaining` days
still to emit, `i` the current day index, `balance` the running balance. -/
def predictGo (sq : ℚ → ℚ) (st : CState) (today : ℤ) (dow_avg dom_avg : ℚ) :
    ℕ → ℕ → ℚ → List CPrediction
  | 0, _, _ => []
  | remaining + 1, i, balance =>
    let future_date := today + (i : ℤ)
    let daily_flow := st.avg_daily_flow
      + (lookupD st.daily_pattern (dayOfWeek future_date) 0 - dow_avg) * (1 / 2)
      + (lookupD st.monthly_pattern (dayOfMonth future_date) 0 - dom_avg) * (3 / 10)
      + get_recurring_flow st.recurring future_date
    let balance2 := balance + daily_flow
    let uncertainty := uncertaintyAt sq st.std_daily_flow i
    ⟨future_date, round2q balance2, round2q daily_flow,
      round2q (balance2 - (196 / 100) * uncertainty),
      round2q (balance2 + (196 / 100) * uncertainty)⟩
      :: predictGo sq st today dow_avg dom_avg remaining (i + 1) balance2

/-- Model of `CashflowForecaster.predict` (`app/ml/cashflow_forecast.py`):
daily balance forecast with day-of-week / day-of-month adjustments,
recurring-expense overlays and a √horizon uncertainty band; empty before
training.  `today` is the day number of `pd.Timestamp.today()` and `sq`
stands for `np.sqrt`. -/
def predict (sq : ℚ → ℚ) (st : CState) (current_balance : ℚ)
    (days_ahead : ℕ) (today : ℤ) : List CPrediction :=
  if st.is_trained = false then []
  else
    let dow_avg := if st.daily_pattern.isEmpty then 0 else meanQ (st.daily_pattern.map (·.2))
    let dom_avg := if st.monthly_pattern.isEmpty then 0 else meanQ (st.monthly_pattern.map (·.2))
    predictGo sq st today dow_avg dom_avg days_ahead 1 current_balance

end CashflowForecaster

/-- Decidable equality for `Except` results (needed to state concrete
`parse_csv` outcomes). -/
instance {e a : Type} [DecidableEq e] [DecidableEq a] : DecidableEq (Except e a) := fun x y =>
  match x, y with
  | .error u, .error v =>
    if h : u = v then .isTrue (by rw [h]) else .isFalse (fun hc => h (by injection hc))
  | .ok u, .ok v =>
    if h : u = v then .isTrue (by rw [h]) else .isFalse (fun hc => h (by injection hc))
  | .error u, .ok v => .isFalse (fun hc => Except.noConfusion hc)
  | .ok u, .error v => .isFalse (fun hc => Except.noConfusion hc)

/-- Replace every whitespace character by a plain space (first step of the
specification-side description of "whitespace-collapsed"). -/
def wsToSpace (l : List Char) : List Char :=
  l.map fun c => if isSpaceChar c then ' ' else c

/-- Collapse each run of consecutive spaces to a single space. -/
def squashSpaces : List Char → List Char
  | [] => []
  | [c] => [c]
  | a :: b :: rest =>
    if a = ' ' && b = ' ' then squashSpaces (b :: rest)
    else a :: squashSpaces (b :: rest)

/-- Drop spaces at the end of a character list. -/
def trimTrail (l : List Char) : List Char :=
  (l.reverse.dropWhile fun c => c = ' ').reverse

/-- Drop spaces at both ends of a character list. -/
def trimSpaces (l : List Char) : List Char :=
  trimTrail (l.dropWhile fun c => c = ' ')

/-- Specification-side reading of "whitespace-collapsed": whitespace
normalized to single spaces, runs collapsed, ends trimmed.  Written
independently of the `" ".join(s.split())` idiom of the source so that the
two can be compared. -/
def collapseWsSpec (l : List Char) : List Char :=
  trimSpaces (squashSpaces (wsToSpace l))

section

attribute [local semireducible] Rat.mul Rat.add Rat.sub Rat.inv Rat.ofScientific

/-! ## Helper lemmas -/

theorem roundHalfEvenQ_err (y : ℚ) : |((roundHalfEvenQ y : ℚ)) - y| ≤ 1 / 2 := by
  have hfl : (⌊y⌋ : ℚ) ≤ y := Int.floor_le y
  have hfu : y < (⌊y⌋ : ℚ) + 1 := Int.lt_floor_add_one y
  unfold roundHalfEvenQ
  split_ifs with h1 h2 h3
  · rw [abs_sub_comm, abs_of_nonneg (by linarith)]
    linarith
  · push_cast
    rw [abs_of_nonneg (by linarith)]
    linarith
  · push_cast
    rw [abs_sub_comm, abs_of_nonneg (by linarith)]
    linarith
  · push_cast
    rw [abs_of_nonneg (by linarith)]
    linarith

theorem round2q_err (x : ℚ) : |round2q x - x| ≤ 1 / 200 := by
  have h := roundHalfEvenQ_err (100 * x)
  unfold round2q
  rw [show (roundHalfEvenQ (100 * x) : ℚ) / 100 - x
      = ((roundHalfEvenQ (100 * x) : ℚ) - 100 * x) / 100 by ring]
  rw [abs_div]
  rw [abs_of_nonneg (by norm_num : (0 : ℚ) ≤ 100)]
  linarith

theorem roundHalfEvenQ_le_of_le (y : ℚ) (b : ℤ) (hy : y ≤ (b : ℚ)) :
    roundHalfEvenQ y ≤ b := by
  have hfb : ⌊y⌋ ≤ b := by
    have := Int.floor_le_floor hy
    simpa using this
  unfold roundHalfEvenQ
  split_ifs with h1 h2 h3
  · exact hfb
  · have h0 : (1 : ℚ) / 2 ≤ y - ⌊y⌋ := le_of_not_lt h1
    have hfl : (⌊y⌋ : ℚ) ≤ y := Int.floor_le y
    have hq : (⌊y⌋ : ℚ) < (b : ℚ) := by linarith
    have hlt : ⌊y⌋ < b := by exact_mod_cast hq
    omega
  · exact hfb
  · have h0 : (1 : ℚ) / 2 ≤ y - ⌊y⌋ := le_of_not_lt h1
    have hfl : (⌊y⌋ : ℚ) ≤ y := Int.floor_le y
    have hq : (⌊y⌋ : ℚ) < (b : ℚ) := by linarith
    have hlt : ⌊y⌋ < b := by exact_mod_cast hq
    omega

theorem round2q_le_one (x : ℚ) (hx : x ≤ 1) : round2q x ≤ 1 := by
  have h : roundHalfEvenQ (100 * x) ≤ (100 : ℤ) :=
    roundHalfEvenQ_le_of_le (100 * x) 100 (by push_cast; linarith)
  unfold round2q
  rw [div_le_one (by norm_num)]
  exact_mod_cast h

theorem foldl_filter_sum {α : Type} (p : α → Bool) (f : α → ℚ) :
    ∀ (l : List α) (init : ℚ),
      l.foldl (fun tot r => if p r then tot + f r else tot) init
        = init + ((l.filter p).map f).sum := by
  intro l
  induction l with
  | nil => intro init; simp
  | cons a as ih =>
    intro init
    simp only [List.foldl_cons, List.filter_cons]
    by_cases hp : p a
    · simp only [hp, if_true, ih]
      simp [List.map_cons]
      ring
    · simp only [hp, if_false, ih]
      simp [hp]

/-! ## C6 — format detection returns the first matching catalog entry -/

/-- C6: `detect_format` returns the first catalog entry (in catalog
iteration order) whose identifier-column set is contained in the observed
columns, and `none` when no entry matches; in particular the header
\x7bTransaction Date, Post Date, Description, Amount\x7d classifies as
`chase_credit`. -/
theorem detect_format_first_match :
    (∀ (columns : List String),
      detect_format columns
        = (KNOWN_FORMATS.find? fun f => columnsSubset f.identifier_columns columns).map
            (fun f => f.name))
    ∧ detect_format ["Transaction Date", "Post Date", "Description", "Amount"]
        = some "chase_credit" := by
  constructor
  · intro columns
    have hgo : ∀ (l : List KnownFormat),
        detectFormatGo columns l
          = (l.find? fun f => columnsSubset f.identifier_columns columns).map
              (fun f => f.name) := by
      intro l
      induction l with
      | nil => simp [detectFormatGo]
      | cons f rest ih =>
        simp only [detectFormatGo, List.find?_cons]
        by_cases h : columnsSubset f.identifier_columns columns
        · simp [h]
        · simp only [h, if_false]
          rw [ih]
          simp [Bool.not_eq_true] at h
          simp [h]
    exact hgo KNOWN_FORMATS
  · decide

/-! ## C10 — `detect_format` can never answer `mint_export` -/

/-- C10: for every header set, `detect_format` never returns
`mint_export`: the Wells Fargo identifier columns are a subset of the
Mint identifier columns and Wells Fargo precedes Mint in catalog order,
so any header matching Mint is claimed by an earlier entry. -/
theorem detect_format_never_mint (columns : List String) :
    detect_format columns ≠ some "mint_export" := by
  simp only [detect_format, KNOWN_FORMATS, detectFormatGo]
  split_ifs with h1 h2 h3 h4 h5 h6
  · simp
  · simp
  · simp
  · simp
  · simp
  · exfalso
    simp only [columnsSubset, List.all_cons, List.all_nil, Bool.and_eq_true,
      Bool.and_true] at h4 h6
    exact h4 ⟨h6.1, h6.2.2.2.1, h6.2.1⟩
  · simp

/-! ## C9 — graceful empty results on insufficient data -/

/-- C9: the analytics entry points return empty lists rather than raising:
`RecurringExpenseDetector.detect` on no transactions, `SpendingForecaster.predict`
on a category without a trained model, and `CashflowForecaster.predict`
before any successful training. -/
theorem analytics_empty_results (min_occurrences : ℕ)
    (models : List (ℤ × SpendingForecaster.CategoryModel)) (category_id : ℤ)
    (months_ahead : ℕ) (today : ℤ × ℕ)
    (hcid : List.lookup category_id models = none)
    (sq : ℚ → ℚ) (st : CashflowForecaster.CState) (current_balance : ℚ)
    (days_ahead : ℕ) (todayD : ℤ)
    (hst : st.is_trained = false) :
    RecurringExpenseDetector.detect min_occurrences [] = []
    ∧ SpendingForecaster.predict models category_id months_ahead today = []
    ∧ CashflowForecaster.predict sq st current_balance days_ahead todayD = [] := by
  refine ⟨?_, ?_, ?_⟩
  · simp [RecurringExpenseDetector.detect]
  · simp [SpendingForecaster.predict, hcid]
  · simp [CashflowForecaster.predict, hst]

/-- Witness for C9 at concrete inputs: an empty transaction list, an empty
model map, and the freshly initialized cashflow forecaster. -/
theorem analytics_empty_results_witness :
    RecurringExpenseDetector.detect 3 [] = []
    ∧ SpendingForecaster.predict [] 1 3 (2025, 11) = []
    ∧ CashflowForecaster.predict (fun q => q) CashflowForecaster.init 0 30 0 = [] :=
  analytics_empty_results 3 [] 1 3 (2025, 11) (by rfl)
    (fun q => q) CashflowForecaster.init 0 30 0 (by rfl)

/-! ## C4 — amount-string parsing and row dropping -/

/-- C4 counterexample: the claim says a non-numeric amount always causes
the containing row to be dropped rather than raising, but under
`type_column` amount handling the failed parse reaches `abs(None)`, whose
`TypeError` is not caught by the row-level `except (KeyError, ValueError)`
and propagates out of `parse_csv` (modelled as `.error`). -/
theorem parse_amount_row_drop_counterexample :
    parse_csv .type_column false AUTO_DATE_FORMATS
      [⟨some "03/16/2024", some "abc", some "Bad", none, none, none, some "Debit"⟩]
      = .error "TypeError" := by
  rfl

/-- C4 amended: parenthesized values parse negated, empty and lone dashes
parse to zero (also after `$`/`,` stripping), other non-numeric content
fails to parse, and — under `signed` amount handling — the failure drops
just the containing row from the output. -/
theorem parse_amount_row_drop :
    parse_amount (some "(50.00)") = some (-50)
    ∧ parse_amount (some "") = some 0
    ∧ parse_amount (some "-") = some 0
    ∧ parse_amount (some "--") = some 0
    ∧ parse_amount (some "$--") = some 0
    ∧ parse_amount (some "abc") = none
    ∧ parse_csv .signed false AUTO_DATE_FORMATS
        [⟨some "03/15/2024", some "$1,234.56", some " Coffee ", none, none, none, none⟩,
         ⟨some "03/16/2024", some "abc", some "Bad", none, none, none, none⟩,
         ⟨some "03/17/2024", some "(50.00)", some "Refund", none, none, none, none⟩]
        = .ok [⟨"2024-03-15", 30864 / 25, "Coffee", "Coffee", "Coffee"⟩,
               ⟨"2024-03-17", -50, "Refund", "Refund", "Refund"⟩] := by
  refine ⟨by decide, by decide, by decide, by decide, by decide, by decide, ?_⟩
  decide


/-! ## C1 — spending forecast for a single-bucket category -/

/-- C1 counterexample: for a category trained on the single monthly bucket
100, the stored std is 0, but `predict` substitutes the `0.2 × point`
spread (the `std > 0 else pred * 0.2` fallback), so the returned bounds
are 60.8 and 139.2 rather than collapsing onto the point estimate, against
the claim that lower = point = upper. -/
theorem spending_single_bucket_counterexample :
    ¬ (∀ p ∈ SpendingForecaster.predict
          [(1, SpendingForecaster.train_category_average [100])] 1 1 (2025, 11),
        p.lower_bound = p.predicted_amount ∧ p.predicted_amount = p.upper_bound) := by
  decide

/-- C1 amended: for a category trained with exactly one monthly expense
bucket of total `t > 0`, every prediction has point estimate `t` (rounded
to cents) and bounds `0.608 t` and `1.392 t` (rounded to cents): the
stored spread 0 triggers the `0.2 × point` substitute spread, giving
point ± 1.96 × 0.2 × point instead of coinciding bounds. -/
theorem spending_single_bucket_bounds (t : ℚ) (ht : 0 < t) (cid : ℤ) (n : ℕ)
    (today : ℤ × ℕ) :
    ∀ p ∈ SpendingForecaster.predict
        [(cid, SpendingForecaster.train_category_average [t])] cid n today,
      p.predicted_amount = round2q t
      ∧ p.lower_bound = round2q ((76 / 125) * t)
      ∧ p.upper_bound = round2q ((174 / 125) * t) := by
  intro p hp
  simp only [SpendingForecaster.predict, SpendingForecaster.train_category_average,
    List.lookup, beq_self_eq_true] at hp
  simp only [List.mem_map, List.mem_range] at hp
  obtain ⟨k, hk, rfl⟩ := hp
  have hmean : meanQ [t] = t := by
    simp [meanQ]
  have hstdsel : (if 1 < ([t] : List ℚ).length then npSqrt (varianceSample [t]) else 0)
      = 0 := by norm_num
  have hgt : ¬ ((0 : ℚ) > 0) := by norm_num
  simp only [hmean, hstdsel, hgt, if_false]
  have hmax : (0 : ℚ) ⊔ t = t := sup_eq_right.mpr ht.le
  simp only [hmax]
  refine ⟨by trivial, ?_, ?_⟩
  · have h1 : (0 : ℚ) ⊔ (t - 196 / 100 * (t * (2 / 10))) = 76 / 125 * t := by
      rw [sup_eq_right.mpr (by nlinarith)]
      ring
    rw [h1]
  · have h2 : t + 196 / 100 * (t * (2 / 10)) = 174 / 125 * t := by ring
    rw [h2]

/-- Witness for the amended C1 at bucket total 100 (first forecast month,
today = 2025-11). -/
theorem spending_single_bucket_bounds_witness :
    (SpendingForecaster.SPrediction.mk "2025-12" 100 (304 / 5) (696 / 5)).predicted_amount = round2q 100
    ∧ (SpendingForecaster.SPrediction.mk "2025-12" 100 (304 / 5) (696 / 5)).lower_bound
        = round2q ((76 / 125) * 100)
    ∧ (SpendingForecaster.SPrediction.mk "2025-12" 100 (304 / 5) (696 / 5)).upper_bound
        = round2q ((174 / 125) * 100) :=
  spending_single_bucket_bounds 100 (by norm_num) 1 1 (2025, 11)
    (SpendingForecaster.SPrediction.mk "2025-12" 100 (304 / 5) (696 / 5)) (by decide)


/-! ## C7 — recurring-expense due test in cashflow prediction -/

/-- C7: with a parseable next expected date and a positive cycle length
(true of every detector-produced candidate), a recurring expense is
counted as due on a date iff the day difference is non-negative and its
residue modulo `frequency_days` lies in [0, 3); and
`_get_recurring_flow` adds exactly the `average_amount` of the due
entries to that day's flow. -/
theorem recurring_due_iff (rec : RecurringEntry) (date nd : ℤ)
    (hnd : rec.next_expected_date = some nd) (hf : 0 < rec.frequency_days) :
    (CashflowForecaster.is_recurring_due rec date = true ↔
      (0 ≤ date - nd ∧ 0 ≤ (date - nd) % rec.frequency_days
        ∧ (date - nd) % rec.frequency_days < 3))
    ∧ (∀ (recs : List RecurringEntry) (d : ℤ),
        CashflowForecaster.get_recurring_flow recs d =
          ((recs.filter fun r => CashflowForecaster.is_recurring_due r d).map
            (fun r => r.average_amount)).sum) := by
  constructor
  · simp only [CashflowForecaster.is_recurring_due, hnd, decide_eq_true_eq]
    constructor
    · rintro ⟨h1, h2⟩
      exact ⟨h1, Int.emod_nonneg _ (ne_of_gt hf), h2⟩
    · rintro ⟨h1, _, h3⟩
      exact ⟨h1, h3⟩
  · intro recs d
    unfold CashflowForecaster.get_recurring_flow
    rw [foldl_filter_sum (fun r => CashflowForecaster.is_recurring_due r d)
      (fun r => r.average_amount) recs 0]
    simp

/-- Witness for C7: a monthly expense expected on day 100, queried on day
130 (one full cycle later, inside the 3-day window). -/
theorem recurring_due_iff_witness :
    (CashflowForecaster.is_recurring_due ⟨10, 30, some 100⟩ 130 = true ↔
      (0 ≤ (130 : ℤ) - 100 ∧ 0 ≤ ((130 : ℤ) - 100) % 30
        ∧ ((130 : ℤ) - 100) % 30 < 3))
    ∧ CashflowForecaster.get_recurring_flow [⟨10, 30, some 100⟩] 130 =
        ((([⟨10, 30, some 100⟩] : List RecurringEntry).filter
          (fun r => CashflowForecaster.is_recurring_due r 130)).map
            (fun r => r.average_amount)).sum := by
  have h := recurring_due_iff ⟨10, 30, some 100⟩ 130 100 rfl (by decide)
  exact ⟨h.1, h.2 [⟨10, 30, some 100⟩] 130⟩


/-! ## C8 — detector output confidence range and ordering -/

theorem calculate_confidence_le_one (b : Bool) (cv ic : ℚ) (n : ℕ) :
    RecurringExpenseDetector.calculate_confidence b cv ic n ≤ 1 := by
  unfold RecurringExpenseDetector.calculate_confidence
  exact min_le_right _ _

theorem analyze_merchant_conf_le_one {m : String} {g : List DetectorTxn}
    {r : RecurringCandidate}
    (h : RecurringExpenseDetector.analyze_merchant m g = some r) :
    r.confidence ≤ 1 := by
  simp only [RecurringExpenseDetector.analyze_merchant] at h
  repeat' split at h
  any_goals exact Option.noConfusion h
  obtain rfl := Option.some.inj h
  exact round2q_le_one _ (calculate_confidence_le_one _ _ _ _)

/-- C8: every candidate returned by `RecurringExpenseDetector.detect` has
confidence strictly above 0.5 and at most 1, and the returned list is
sorted in non-increasing confidence order. -/
theorem detect_output_invariant (min_occurrences : ℕ)
    (transactions : List DetectorTxn) :
    (∀ r ∈ RecurringExpenseDetector.detect min_occurrences transactions,
      1 / 2 < r.confidence ∧ r.confidence ≤ 1)
    ∧ List.Sorted RecurringExpenseDetector.confGE
        (RecurringExpenseDetector.detect min_occurrences transactions) := by
  unfold RecurringExpenseDetector.detect
  by_cases he : transactions = []
  · simp [he]
  · simp only [if_neg he]
    constructor
    · intro r hr
      rw [(List.perm_insertionSort RecurringExpenseDetector.confGE _).mem_iff] at hr
      rw [List.mem_filterMap] at hr
      obtain ⟨kg, hkg, hf⟩ := hr
      unfold RecurringExpenseDetector.detectGroup at hf
      split at hf
      · exact Option.noConfusion hf
      · split at hf
        · exact Option.noConfusion hf
        · rename_i r0 heq
          split at hf
          · rename_i hc
            obtain rfl := Option.some.inj hf
            exact ⟨hc, analyze_merchant_conf_le_one heq⟩
          · exact Option.noConfusion hf
    · exact List.sorted_insertionSort RecurringExpenseDetector.confGE _


/-! ## C5 — cashflow uncertainty band width across the horizon -/

/-- C5 counterexample: on a trained forecaster with a tiny daily-flow std
(0.003) and balances sitting near cent boundaries, the *returned* band
width (rounded `upper_bound - lower_bound`) at day 2 is 0 while at day 1
it is 0.01: cent rounding of the two bounds can shrink the reported band
even though the underlying uncertainty grows.  (The argument only needs
`npSqrt 2` to lie in (1, 2.5); the IEEE value of `np.sqrt(2)` lies in the
same range and yields the same roundings.) -/
theorem cashflow_band_width_counterexample :
    (let preds := CashflowForecaster.predict npSqrt
        (CashflowForecaster.train CashflowForecaster.init
          [⟨19396, 3 / 1000⟩, ⟨19397, 3 / 1000⟩, ⟨19398, -3 / 1000⟩,
           ⟨19399, -3 / 1000⟩, ⟨19400, 0⟩] none)
        0 2 19424;
     (preds.getD 1 ⟨0, 0, 0, 0, 0⟩).upper_bound - (preds.getD 1 ⟨0, 0, 0, 0, 0⟩).lower_bound
       < (preds.getD 0 ⟨0, 0, 0, 0, 0⟩).upper_bound
          - (preds.getD 0 ⟨0, 0, 0, 0, 0⟩).lower_bound) := by
  decide

theorem predictGo_width_close (sq : ℚ → ℚ) (st : CashflowForecaster.CState)
    (today : ℤ) (da dm : ℚ) :
    ∀ (n i : ℕ) (bal : ℚ) (k : ℕ) (p : CashflowForecaster.CPrediction),
      (CashflowForecaster.predictGo sq st today da dm n i bal)[k]? = some p →
      |(p.upper_bound - p.lower_bound)
        - 2 * (196 / 100) * CashflowForecaster.uncertaintyAt sq st.std_daily_flow (i + k)|
        ≤ 1 / 100 := by
  intro n
  induction n with
  | zero =>
    intro i bal k p h
    simp [CashflowForecaster.predictGo] at h
  | succ m ih =>
    intro i bal k p h
    rw [CashflowForecaster.predictGo] at h
    cases k with
    | zero =>
      simp only [List.getElem?_cons_zero] at h
      obtain rfl := Option.some.inj h
      simp only [Nat.add_zero]
      set u := CashflowForecaster.uncertaintyAt sq st.std_daily_flow i with hu
      set b2 := bal + (st.avg_daily_flow
        + (lookupD st.daily_pattern (dayOfWeek (today + (i : ℤ))) 0 - da) * (1 / 2)
        + (lookupD st.monthly_pattern (dayOfMonth (today + (i : ℤ))) 0 - dm) * (3 / 10)
        + CashflowForecaster.get_recurring_flow st.recurring (today + (i : ℤ))) with hb2
      have e1 := round2q_err (b2 + 196 / 100 * u)
      have e2 := round2q_err (b2 - 196 / 100 * u)
      have erw : round2q (b2 + 196 / 100 * u) - round2q (b2 - 196 / 100 * u)
          - 2 * (196 / 100) * u
          = (round2q (b2 + 196 / 100 * u) - (b2 + 196 / 100 * u))
            - (round2q (b2 - 196 / 100 * u) - (b2 - 196 / 100 * u)) := by
        ring
      rw [erw]
      calc |(round2q (b2 + 196 / 100 * u) - (b2 + 196 / 100 * u))
            - (round2q (b2 - 196 / 100 * u) - (b2 - 196 / 100 * u))|
          ≤ |round2q (b2 + 196 / 100 * u) - (b2 + 196 / 100 * u)|
            + |round2q (b2 - 196 / 100 * u) - (b2 - 196 / 100 * u)| := abs_sub _ _
        _ ≤ 1 / 200 + 1 / 200 := add_le_add e1 e2
        _ = 1 / 100 := by norm_num
    | succ k2 =>
      simp only [List.getElem?_cons_succ] at h
      have h2 := ih (i + 1) _ k2 p h
      have hidx : i + 1 + k2 = i + (k2 + 1) := by omega
      rw [hidx] at h2
      exact h2

/-- C5 amended: the pre-rounding band width
`2 × 1.96 × std_daily_flow × sqrt(day_index) × 0.5` is non-decreasing in
the day index (for any monotone square-root routine and the non-negative
std of a trained forecaster), and every entry that
`CashflowForecaster.predict` returns has its reported (cent-rounded)
`upper_bound - lower_bound` within one cent of that exact width; the
reported width itself can shrink by up to a cent, as the counterexample
shows. -/
theorem cashflow_band_width_monotone (sq : ℚ → ℚ) (hmono : Monotone sq)
    (st : CashflowForecaster.CState) (hstd : 0 ≤ st.std_daily_flow) :
    (∀ i j : ℕ, i ≤ j →
      2 * (196 / 100) * CashflowForecaster.uncertaintyAt sq st.std_daily_flow i
        ≤ 2 * (196 / 100) * CashflowForecaster.uncertaintyAt sq st.std_daily_flow j)
    ∧ (∀ (current_balance : ℚ) (days_ahead : ℕ) (today : ℤ) (k : ℕ)
          (p : CashflowForecaster.CPrediction),
        (CashflowForecaster.predict sq st current_balance days_ahead today)[k]? = some p →
        |(p.upper_bound - p.lower_bound)
          - 2 * (196 / 100) * CashflowForecaster.uncertaintyAt sq st.std_daily_flow (k + 1)|
          ≤ 1 / 100) := by
  constructor
  · intro i j hij
    unfold CashflowForecaster.uncertaintyAt
    have hsq : sq (i : ℚ) ≤ sq (j : ℚ) := hmono (by exact_mod_cast hij)
    have h1 : st.std_daily_flow * sq (i : ℚ) ≤ st.std_daily_flow * sq (j : ℚ) :=
      mul_le_mul_of_nonneg_left hsq hstd
    nlinarith
  · intro current_balance days_ahead today k p h
    unfold CashflowForecaster.predict at h
    by_cases ht : st.is_trained = false
    · rw [if_pos ht] at h
      simp at h
    · rw [if_neg ht] at h
      have h2 := predictGo_width_close sq st today _ _ days_ahead 1 current_balance k p h
      have hidx : 1 + k = k + 1 := by omega
      rw [hidx] at h2
      exact h2

/-- Witness for the amended C5: the identity square root, the initial
state (std 0), days 1 and 30. -/
theorem cashflow_band_width_monotone_witness :
    2 * (196 / 100) * CashflowForecaster.uncertaintyAt (fun q => q)
        CashflowForecaster.init.std_daily_flow 1
      ≤ 2 * (196 / 100) * CashflowForecaster.uncertaintyAt (fun q => q)
        CashflowForecaster.init.std_daily_flow 30 :=
  (cashflow_band_width_monotone (fun q => q) (fun _ _ hab => hab)
    CashflowForecaster.init (by decide)).1 1 30 (by decide)


/-! ## C2 — four identical monthly transactions yield one high-confidence candidate -/

theorem c2_conf_eval : round2q (RecurringExpenseDetector.calculate_confidence
    (decide (npSqrt (variancePop [(999 : ℚ) / 100, 999 / 100, 999 / 100, 999 / 100]) /
        |meanQ [(999 : ℚ) / 100, 999 / 100, 999 / 100, 999 / 100]| < 3 / 20))
    (npSqrt (variancePop [(999 : ℚ) / 100, 999 / 100, 999 / 100, 999 / 100]) /
        |meanQ [(999 : ℚ) / 100, 999 / 100, 999 / 100, 999 / 100]|)
    1 (0 + 1 + 1 + 1 + 1)) = 9 / 10 := by
  decide

set_option maxHeartbeats 1000000 in
/-- C2: four transactions sharing one description (with a normalized key
of at least 2 characters), all of amount 9.99, spaced exactly 30 days
apart, make `detect` (min_occurrences = 3) emit exactly one candidate:
monthly, 30-day cycle, confidence 0.9 (≥ 0.9). -/
theorem detect_monthly_subscription (desc : String)
    (h2 : 2 ≤ (normalize_merchant desc).length) :
    RecurringExpenseDetector.detect 3
      [⟨0, 999 / 100, desc⟩, ⟨30, 999 / 100, desc⟩,
       ⟨60, 999 / 100, desc⟩, ⟨90, 999 / 100, desc⟩]
    = [⟨String.mk (pyTitle (normalize_merchant desc).data), 999 / 100, 30, "monthly",
        9 / 10, 120, 4, 0, 90⟩] := by
  set n := normalize_merchant desc with hn
  have hne : ¬ (n = "") := by
    intro he
    rw [he] at h2
    simp at h2
  have hlt : ¬ (n.length < 2) := by omega
  have hgrp : RecurringExpenseDetector.analyze_merchant n
      [⟨0, 999 / 100, desc⟩, ⟨30, 999 / 100, desc⟩,
       ⟨60, 999 / 100, desc⟩, ⟨90, 999 / 100, desc⟩]
      = some ⟨String.mk (pyTitle n.data), 999 / 100, 30, "monthly",
          9 / 10, 120, 4, 0, 90⟩ := by
    rw [RecurringExpenseDetector.analyze_merchant]
    rw [if_neg (by simp [hne, hlt])]
    have hsort : List.insertionSort (fun a b : ℤ => a ≤ b) [0, 30, 60, 90]
        = [0, 30, 60, 90] := by decide
    simp only [List.map_cons, List.map_nil, hsort, List.length_cons, List.length_nil]
    rw [if_neg (by decide)]
    have hfreq : RecurringExpenseDetector.detect_frequency
        ((RecurringExpenseDetector.consecDiffs [0, 30, 60, 90]).map fun d : ℤ => (d : ℚ))
        = some ("monthly", 30, 1) := by decide
    rw [if_neg (by decide), hfreq]
    simp only [Option.some.injEq, RecurringCandidate.mk.injEq, List.length_cons,
      List.length_nil]
    and_intros <;> first | exact c2_conf_eval | trivial | decide
  rw [RecurringExpenseDetector.detect, if_neg (by simp)]
  have hkeys : (List.map (fun t : DetectorTxn => normalize_merchant t.description)
      [⟨0, 999 / 100, desc⟩, ⟨30, 999 / 100, desc⟩,
       ⟨60, 999 / 100, desc⟩, ⟨90, 999 / 100, desc⟩])
      = [n, n, n, n] := by
    simp [← hn]
  have hdedup : ([n, n, n, n] : List String).dedup = [n] := by
    simp [List.dedup_cons_of_mem, List.mem_dedup]
  rw [hkeys, hdedup]
  have hsort1 : List.insertionSort
      (fun a b : String => RecurringExpenseDetector.charListLE a.data b.data) [n] = [n] := by
    simp [List.insertionSort, List.orderedInsert]
  rw [hsort1]
  simp only [List.map_cons, List.map_nil]
  have hfilter : List.filter
      (fun t : DetectorTxn => normalize_merchant t.description = n)
      [⟨0, 999 / 100, desc⟩, ⟨30, 999 / 100, desc⟩,
       ⟨60, 999 / 100, desc⟩, ⟨90, 999 / 100, desc⟩]
      = [⟨0, 999 / 100, desc⟩, ⟨30, 999 / 100, desc⟩,
         ⟨60, 999 / 100, desc⟩, ⟨90, 999 / 100, desc⟩] := by
    simp [← hn]
  rw [hfilter]
  have hF : RecurringExpenseDetector.detectGroup 3
      (n, [⟨0, 999 / 100, desc⟩, ⟨30, 999 / 100, desc⟩,
           ⟨60, 999 / 100, desc⟩, ⟨90, 999 / 100, desc⟩])
      = some ⟨String.mk (pyTitle n.data), 999 / 100, 30, "monthly",
          9 / 10, 120, 4, 0, 90⟩ := by
    rw [RecurringExpenseDetector.detectGroup]
    rw [if_neg (by simp)]
    simp only [hgrp]
    rw [if_pos (show ((9 : ℚ) / 10 > 1 / 2) by norm_num)]
  simp only [List.filterMap_cons, List.filterMap_nil, hF]
  have hsort2 : List.insertionSort RecurringExpenseDetector.confGE
      [(⟨String.mk (pyTitle n.data), 999 / 100, 30, "monthly",
          9 / 10, 120, 4, 0, 90⟩ : RecurringCandidate)]
      = [(⟨String.mk (pyTitle n.data), 999 / 100, 30, "monthly",
          9 / 10, 120, 4, 0, 90⟩ : RecurringCandidate)] := by
    simp [List.insertionSort, List.orderedInsert]
  rw [hsort2]

/-- Witness for C2 at the concrete description `"NETFLIX"` (normalized key
`"netflix"`, 7 characters). -/
theorem detect_monthly_subscription_witness :
    RecurringExpenseDetector.detect 3
      [⟨0, 999 / 100, "NETFLIX"⟩, ⟨30, 999 / 100, "NETFLIX"⟩,
       ⟨60, 999 / 100, "NETFLIX"⟩, ⟨90, 999 / 100, "NETFLIX"⟩]
    = [⟨String.mk (pyTitle (normalize_merchant "NETFLIX").data), 999 / 100, 30, "monthly",
        9 / 10, 120, 4, 0, 90⟩] :=
  detect_monthly_subscription "NETFLIX" (by decide)


/-! ## C3 — the import fingerprint -/

theorem joinSpace_cons_ne (w : List Char) (ws : List (List Char)) (h : ws ≠ []) :
    joinSpace (w :: ws) = w ++ ' ' :: joinSpace ws := by
  cases ws with
  | nil => exact absurd rfl h
  | cons w2 ws2 => rfl

theorem squash_cons_ne (c : Char) (t : List Char) (h : ¬ c = ' ') :
    squashSpaces (c :: t) = c :: squashSpaces t := by
  cases t with
  | nil => rfl
  | cons b rest =>
    rw [squashSpaces]
    simp [h]

theorem squash_space (t : List Char) :
    squashSpaces (' ' :: t) = ' ' :: squashSpaces (t.dropWhile fun c => c = ' ') := by
  induction t with
  | nil => rfl
  | cons d rest ih =>
    by_cases hd : d = ' '
    · subst hd
      rw [show squashSpaces (' ' :: ' ' :: rest) = squashSpaces (' ' :: rest) by
        rw [squashSpaces]; simp]
      rw [ih]
      simp [List.dropWhile]
    · rw [show squashSpaces (' ' :: d :: rest) = ' ' :: squashSpaces (d :: rest) by
        rw [squashSpaces]; simp [hd]]
      simp [List.dropWhile, hd]

theorem dropWhile_append_last {p : Char → Bool} (u : List Char) (c : Char)
    (hc : p c = false) :
    (u ++ [c]).dropWhile p = u.dropWhile p ++ [c] := by
  induction u with
  | nil => simp [List.dropWhile, hc]
  | cons a u2 ih =>
    by_cases ha : p a
    · simp [List.dropWhile, ha, ih]
    · simp [List.dropWhile, ha]

theorem dropWhile_append_of_ne_nil {p : Char → Bool} (u v : List Char)
    (h : u.dropWhile p ≠ []) :
    (u ++ v).dropWhile p = u.dropWhile p ++ v := by
  induction u with
  | nil => exact absurd rfl h
  | cons a u2 ih =>
    by_cases ha : p a
    · simp only [List.dropWhile_cons_of_pos ha] at h
      simp [List.dropWhile, ha, ih h]
    · simp [List.dropWhile, ha]

theorem trimTrail_cons_ne (c : Char) (x : List Char) (h : ¬ c = ' ') :
    trimTrail (c :: x) = c :: trimTrail x := by
  unfold trimTrail
  rw [List.reverse_cons, dropWhile_append_last]
  · simp
  · simp [h]

theorem trimTrail_all_space (x : List Char) (h : ∀ a ∈ x, a = ' ') :
    trimTrail x = [] := by
  unfold trimTrail
  rw [List.dropWhile_eq_nil_iff.mpr]
  · rfl
  · intro a ha
    simp [h a (List.mem_reverse.mp ha)]

theorem trimTrail_space_cons (x : List Char) (h : ¬ ∀ a ∈ x, a = ' ') :
    trimTrail (' ' :: x) = ' ' :: trimTrail x := by
  have hne : x.reverse.dropWhile (fun c => decide (c = ' ')) ≠ [] := by
    intro he
    apply h
    intro a ha
    have := List.dropWhile_eq_nil_iff.mp he a (List.mem_reverse.mpr ha)
    simpa using this
  unfold trimTrail
  rw [List.reverse_cons, dropWhile_append_of_ne_nil _ _ hne]
  simp

theorem wsToSpace_dropWhile (x : List Char) :
    (wsToSpace x).dropWhile (fun c => c = ' ')
      = wsToSpace (x.dropWhile isSpaceChar) := by
  induction x with
  | nil => rfl
  | cons a x2 ih =>
    by_cases ha : isSpaceChar a
    · simp only [wsToSpace, List.map_cons, if_pos ha]
      rw [List.dropWhile_cons_of_pos (by simp), List.dropWhile_cons_of_pos ha]
      exact ih
    · have ha2 : ¬ (a = ' ') := by
        intro he
        apply ha
        rw [he]
        rfl
      simp only [wsToSpace, List.map_cons, if_neg ha]
      rw [List.dropWhile_cons_of_neg (by simp [ha2]), List.dropWhile_cons_of_neg (by simp [ha])]
      simp [wsToSpace, ha]

theorem splitWsAcc_skip (x : List Char) :
    splitWsAcc [] x = splitWsAcc [] (x.dropWhile isSpaceChar) := by
  induction x with
  | nil => rfl
  | cons a x2 ih =>
    by_cases ha : isSpaceChar a
    · rw [show splitWsAcc [] (a :: x2) = splitWsAcc [] x2 by
        rw [splitWsAcc]; simp [ha]]
      rw [List.dropWhile_cons_of_pos ha]
      exact ih
    · rw [List.dropWhile_cons_of_neg ha]

theorem splitWsAcc_ne_nil (l : List Char) : ∀ (cur : List Char), cur ≠ [] →
    splitWsAcc cur l ≠ [] := by
  induction l with
  | nil =>
    intro cur hc
    rw [splitWsAcc]
    simp [hc]
  | cons c cs ih =>
    intro cur hc
    rw [splitWsAcc]
    by_cases hsp : isSpaceChar c
    · simp only [hsp, if_true]
      rw [if_neg (by simp [hc])]
      simp
    · simp only [hsp, if_false]
      exact ih (c :: cur) (by simp)

theorem splitWsAcc_nil_iff (x : List Char) :
    splitWsAcc [] x = [] ↔ ∀ a ∈ x, isSpaceChar a := by
  induction x with
  | nil => simp [splitWsAcc]
  | cons c cs ih =>
    by_cases hsp : isSpaceChar c
    · rw [show splitWsAcc [] (c :: cs) = splitWsAcc [] cs by
        rw [splitWsAcc]; simp [hsp]]
      rw [ih]
      simp [hsp]
    · constructor
      · intro he
        exact absurd he (by
          rw [splitWsAcc]
          simp only [hsp, if_false]
          exact splitWsAcc_ne_nil cs [c] (by simp))
      · intro hall
        exact absurd (hall c (by simp)) hsp

theorem dropWhile_head_not {p : Char → Bool} (x : List Char) (d : Char) (ds : List Char)
    (h : x.dropWhile p = d :: ds) : p d = false := by
  induction x with
  | nil => simp [List.dropWhile] at h
  | cons a x2 ih =>
    by_cases ha : p a
    · rw [List.dropWhile_cons_of_pos ha] at h
      exact ih h
    · rw [List.dropWhile_cons_of_neg ha] at h
      obtain rfl := (List.cons.injEq _ _ _ _ ▸ h).1
      simpa using ha


theorem dropWhile_length_le {p : Char → Bool} (l : List Char) :
    (l.dropWhile p).length ≤ l.length := by
  induction l with
  | nil => simp
  | cons a l2 ih =>
    by_cases ha : p a
    · rw [List.dropWhile_cons_of_pos ha]
      exact le_trans ih (by simp)
    · rw [List.dropWhile_cons_of_neg ha]

theorem squash_dropWhile (t : List Char) :
    (squashSpaces (wsToSpace t)).dropWhile (fun c => c = ' ')
      = squashSpaces (wsToSpace (t.dropWhile isSpaceChar)) := by
  induction t with
  | nil => rfl
  | cons c cs ih =>
    by_cases hsp : isSpaceChar c
    · rw [show wsToSpace (c :: cs) = ' ' :: wsToSpace cs by simp [wsToSpace, hsp]]
      rw [squash_space, wsToSpace_dropWhile]
      rw [List.dropWhile_cons_of_pos (by simp)]
      rw [List.dropWhile_cons_of_pos hsp]
      cases hl : cs.dropWhile isSpaceChar with
      | nil => simp [wsToSpace, squashSpaces, List.dropWhile]
      | cons d ds =>
        have hd := dropWhile_head_not cs d ds hl
        have hd2 : ¬ d = ' ' := fun he => by
          rw [he] at hd
          simp [isSpaceChar] at hd
        rw [show wsToSpace (d :: ds) = d :: wsToSpace ds by simp [wsToSpace, hd]]
        rw [squash_cons_ne d _ hd2]
        rw [List.dropWhile_cons_of_neg (by simp [hd2])]
    · have hc2 : ¬ c = ' ' := fun he => hsp (by rw [he]; rfl)
      rw [show wsToSpace (c :: cs) = c :: wsToSpace cs by simp [wsToSpace, hsp]]
      rw [squash_cons_ne c _ hc2]
      rw [List.dropWhile_cons_of_neg (by simp [hc2])]
      rw [List.dropWhile_cons_of_neg hsp]
      rw [show wsToSpace (c :: cs) = c :: wsToSpace cs by simp [wsToSpace, hsp]]
      rw [squash_cons_ne c _ hc2]

theorem joinSpace_splitWsAcc : ∀ (N : ℕ) (l : List Char), l.length ≤ N →
    ∀ (cur : List Char), cur ≠ [] →
      joinSpace (splitWsAcc cur l)
        = cur.reverse ++ trimTrail (squashSpaces (wsToSpace l)) := by
  intro N
  induction N with
  | zero =>
    intro l hl cur hc
    have : l = [] := by
      cases l with
      | nil => rfl
      | cons a as => simp at hl
    subst this
    rw [splitWsAcc]
    simp [hc, joinSpace, wsToSpace, squashSpaces, trimTrail]
  | succ N ih =>
    intro l hl cur hc
    cases l with
    | nil =>
      rw [splitWsAcc]
      simp [hc, joinSpace, wsToSpace, squashSpaces, trimTrail]
    | cons c cs =>
      have hlen : cs.length ≤ N := by
        simp at hl
        omega
      by_cases hsp : isSpaceChar c
      · rw [show splitWsAcc cur (c :: cs) = cur.reverse :: splitWsAcc [] cs by
          rw [splitWsAcc]
          simp [hsp, hc]]
        rw [show wsToSpace (c :: cs) = ' ' :: wsToSpace cs by simp [wsToSpace, hsp]]
        rw [squash_space, wsToSpace_dropWhile]
        by_cases hall : ∀ a ∈ cs, isSpaceChar a
        · rw [(splitWsAcc_nil_iff cs).mpr hall]
          rw [List.dropWhile_eq_nil_iff.mpr hall]
          rw [show wsToSpace ([] : List Char) = [] from rfl]
          rw [show squashSpaces ([] : List Char) = [] from rfl]
          rw [trimTrail_all_space [' '] (by
            intro a ha
            simpa using ha)]
          simp [joinSpace]
        · have hnn : splitWsAcc [] cs ≠ [] := fun he => hall ((splitWsAcc_nil_iff cs).mp he)
          rw [joinSpace_cons_ne _ _ hnn]
          rw [splitWsAcc_skip cs]
          cases hl2 : cs.dropWhile isSpaceChar with
          | nil => exact absurd (List.dropWhile_eq_nil_iff.mp hl2) hall
          | cons d ds =>
            have hd := dropWhile_head_not cs d ds hl2
            have hd2 : ¬ d = ' ' := fun he => by
              rw [he] at hd
              simp [isSpaceChar] at hd
            have hds : ds.length ≤ N := by
              have h1 : (d :: ds).length ≤ cs.length := by
                rw [← hl2]
                exact dropWhile_length_le cs
              simp at h1
              omega
            rw [show splitWsAcc [] (d :: ds) = splitWsAcc [d] ds by
              rw [splitWsAcc]
              simp [hd]]
            rw [ih ds hds [d] (by simp)]
            rw [show wsToSpace (d :: ds) = d :: wsToSpace ds by simp [wsToSpace, hd]]
            rw [squash_cons_ne d _ hd2]
            rw [trimTrail_space_cons (d :: squashSpaces (wsToSpace ds)) (by
              intro hfa
              exact hd2 (hfa d (by simp)))]
            rw [trimTrail_cons_ne d _ hd2]
            simp
      · rw [show splitWsAcc cur (c :: cs) = splitWsAcc (c :: cur) cs by
          rw [splitWsAcc]
          simp [hsp]]
        rw [ih cs hlen (c :: cur) (by simp)]
        have hc2 : ¬ c = ' ' := fun he => hsp (by rw [he]; rfl)
        rw [show wsToSpace (c :: cs) = c :: wsToSpace cs by simp [wsToSpace, hsp]]
        rw [squash_cons_ne c _ hc2]
        rw [trimTrail_cons_ne c _ hc2]
        simp

theorem joinSpace_split_collapse (l : List Char) :
    joinSpace (pySplitWs l) = collapseWsSpec l := by
  unfold pySplitWs collapseWsSpec trimSpaces
  rw [splitWsAcc_skip l, squash_dropWhile l]
  cases hl : l.dropWhile isSpaceChar with
  | nil => simp [splitWsAcc, joinSpace, wsToSpace, squashSpaces, trimTrail]
  | cons d ds =>
    have hd := dropWhile_head_not l d ds hl
    have hd2 : ¬ d = ' ' := fun he => by
      rw [he] at hd
      simp [isSpaceChar] at hd
    rw [show splitWsAcc [] (d :: ds) = splitWsAcc [d] ds by
      rw [splitWsAcc]
      simp [hd]]
    rw [joinSpace_splitWsAcc ds.length ds le_rfl [d] (by simp)]
    rw [show wsToSpace (d :: ds) = d :: wsToSpace ds by simp [wsToSpace, hd]]
    rw [squash_cons_ne d _ hd2, trimTrail_cons_ne d _ hd2]
    simp

/-- C3: `generate_import_hash` is a pure deterministic function, and its
digest is exactly the SHA-256 of
`date|amount to 2 decimals|lower-cased whitespace-collapsed description|account_id`
joined with `|` separators (the description normalization of the source,
`" ".join(description.lower().split())`, provably coincides with the
independent whitespace-collapse reading of the spec). -/
theorem generate_import_hash_deterministic (date : String) (amount : ℚ)
    (description : String) (account_id : ℤ) :
    generate_import_hash date amount description account_id
      = generate_import_hash date amount description account_id
    ∧ generate_import_hash date amount description account_id
      = sha256Hex (date ++ "|" ++ formatTwoDecimals amount ++ "|"
          ++ String.mk (collapseWsSpec (toLowerList description.data)) ++ "|"
          ++ toString account_id) := by
  refine ⟨rfl, ?_⟩
  unfold generate_import_hash
  rw [joinSpace_split_collapse (toLowerList description.data)]

end
